import Mathlib

/-!
Shallow embedding of the contact-extraction pipeline in
src/backend/scraper.py and src/backend/ai_extractor.py.

Python strings are modelled as Lean Strings (lists of Chars); `str.lower` is
modelled on ASCII (Python lowers full Unicode, but every character class in
the source's regexes is ASCII).  The regular expressions of the source are
embedded with a small backtracking engine (`RE`, `mmatch`, `pyFindall`) that
mirrors Python `re` semantics for the constructs these patterns use: greedy
quantifiers over character classes, optional groups, exact repetition,
capturing groups and word boundaries, leftmost-first matching, and
non-overlapping scans for findall.  BeautifulSoup query results are modelled
by the `Soup` structure (the parsed tags the source's find_all calls select
from); urllib's urlparse/urljoin are taken as parameters of the functions
that use them, with simple concrete models provided for concrete runs.
-/

/-- ASCII lower-casing of one character, modelling Python str.lower on the
ASCII range. -/
def lowC (c : Char) : Char :=
  if 65 ≤ c.toNat ∧ c.toNat ≤ 90 then Char.ofNat (c.toNat + 32) else c

/-- Python str.lower over a whole string (ASCII model). -/
def pyLower (s : String) : String := ⟨s.data.map lowC⟩

/-- Characters Python str.strip removes by default (ASCII whitespace). -/
def pySpace (c : Char) : Bool :=
  c = ' ' || c = '\t' || c = '\n' || c = '\r' || c = '\x0b' || c = '\x0c'

/-- Strip leading and trailing whitespace from a character list. -/
def stripL (l : List Char) : List Char :=
  ((l.dropWhile pySpace).reverse.dropWhile pySpace).reverse

/-- Python str.strip over a string. -/
def pyStrip (s : String) : String := ⟨stripL s.data⟩

/-- Does the list start with the given pattern (Python str.startswith)? -/
def startsWithL : List Char → List Char → Bool
  | [], _ => true
  | _ :: _, [] => false
  | p :: ps, c :: cs => p = c && startsWithL ps cs

/-- Python str.startswith. -/
def startsWithS (p s : String) : Bool := startsWithL p.data s.data

/-- Substring containment on character lists (Python `in` on strings). -/
def infixL (pat : List Char) : List Char → Bool
  | [] => pat.isEmpty
  | c :: cs => startsWithL pat (c :: cs) || infixL pat cs

/-- Python `pat in s` substring test. -/
def infixS (pat s : String) : Bool := infixL pat.data s.data

/-- Python str.count for a single character. -/
def countC (c : Char) (l : List Char) : Nat := (l.filter (fun x => x = c)).length

/-- Python str.split on a non-empty separator, via fuel-bounded scan. -/
def pySplitGo (sep : List Char) : Nat → List Char → List Char → List (List Char)
  | 0, acc, _ => [acc.reverse]
  | fuel + 1, acc, l =>
    match l with
    | [] => [acc.reverse]
    | c :: rest =>
      if startsWithL sep l then
        acc.reverse :: pySplitGo sep fuel [] (l.drop sep.length)
      else
        pySplitGo sep fuel (c :: acc) rest

/-- Python str.split on a non-empty separator. -/
def pySplit (sep l : List Char) : List (List Char) := pySplitGo sep (l.length + 1) [] l

/-- First element returned by a function over a list (a Python for-loop that
breaks at the first hit). -/
def firstSome {α β : Type} (f : α → Option β) : List α → Option β
  | [] => none
  | a :: rest =>
    match f a with
    | some b => some b
    | none => firstSome f rest

/-- Python truthiness of an optional string (None and the empty string are
falsy). -/
def truS : Option String → Bool
  | none => false
  | some s => !s.data.isEmpty

/-- Python `a or b` for an optional string a and a string b. -/
def pyOrS (a : Option String) (b : String) : String :=
  match a with
  | some s => if s.data.isEmpty then b else s
  | none => b

/-- Python ' '.join. -/
def joinSpace : List String → String
  | [] => ""
  | [x] => x
  | x :: y :: rest => x ++ " " ++ joinSpace (y :: rest)

/-- Regular expressions as used by the source's patterns: character classes,
concatenation, greedy option, greedy star/plus over classes, exact repetition
of a class, capturing groups, and word boundaries. -/
inductive RE where
  | eps : RE
  | cls : (Char → Bool) → RE
  | cat : RE → RE → RE
  | opt : RE → RE
  | starCls : (Char → Bool) → RE
  | repCls : (Char → Bool) → Nat → RE
  | group : RE → RE
  | wb : RE

/-- Result of a match attempt: the remaining input and the captures so far. -/
abbrev MRes := Option (List Char × List (List Char))

/-- Greedy Kleene star over a character class, with backtracking through the
continuation. -/
def starGo (p : Char → Bool) (pr : Option Char) (s : List Char) (caps : List (List Char))
    (k : Option Char → List Char → List (List Char) → MRes) : MRes :=
  match s with
  | [] => k pr [] caps
  | c :: t =>
    if p c then
      match starGo p (some c) t caps k with
      | some r => some r
      | none => k pr (c :: t) caps
    else k pr (c :: t) caps

/-- Exact repetition of a character class. -/
def repGo (p : Char → Bool) (n : Nat) (pr : Option Char) (s : List Char) (caps : List (List Char))
    (k : Option Char → List Char → List (List Char) → MRes) : MRes :=
  match n with
  | 0 => k pr s caps
  | m + 1 =>
    match s with
    | [] => none
    | c :: t => if p c then repGo p m (some c) t caps k else none

/-- Python regex word character (for word boundaries). -/
def isWordC (c : Char) : Bool := c.isAlpha || c.isDigit || c = '_'

/-- Word-character test on an optional character (string edges count as
non-word). -/
def isWordO : Option Char → Bool
  | none => false
  | some c => isWordC c

/-- Backtracking matcher in continuation style.  The previous character is
threaded through to decide word boundaries; captures accumulate in group
completion order. -/
def mmatch : RE → Option Char → List Char → List (List Char) →
    (Option Char → List Char → List (List Char) → MRes) → MRes
  | .eps, pr, s, caps, k => k pr s caps
  | .cls p, _, s, caps, k =>
    match s with
    | [] => none
    | c :: t => if p c then k (some c) t caps else none
  | .cat a b, pr, s, caps, k =>
    mmatch a pr s caps (fun pr2 s2 caps2 => mmatch b pr2 s2 caps2 k)
  | .opt a, pr, s, caps, k =>
    match mmatch a pr s caps k with
    | some r => some r
    | none => k pr s caps
  | .starCls p, pr, s, caps, k => starGo p pr s caps k
  | .repCls p n, pr, s, caps, k => repGo p n pr s caps k
  | .group a, pr, s, caps, k =>
    mmatch a pr s caps (fun pr2 s2 _ =>
      k pr2 s2 (caps ++ [s.take (s.length - s2.length)]))
  | .wb, pr, s, caps, k =>
    if isWordO pr != isWordO s.head? then k pr s caps else none

/-- Try to match at the current position; on success return the number of
consumed characters and the captures. -/
def matchAt (r : RE) (pr : Option Char) (s : List Char) : Option (Nat × List (List Char)) :=
  match mmatch r pr s [] (fun _ rest caps => some (rest, caps)) with
  | some (rest, caps) => some (s.length - rest.length, caps)
  | none => none

/-- Anchored match that must consume the whole input (re.match with a final
dollar anchor on a string with no trailing newline). -/
def fullmatchB (r : RE) (s : List Char) : Bool :=
  (mmatch r none s [] (fun _ rest caps =>
    if rest.isEmpty then some (rest, caps) else none)).isSome

/-- Fuel-bounded scan collecting all non-overlapping leftmost matches, as
re.findall does. -/
def findallGo (r : RE) : Nat → Option Char → List Char → List (List Char × List (List Char))
  | 0, _, _ => []
  | fuel + 1, pr, s =>
    match matchAt r pr s with
    | some (n, caps) =>
      if n = 0 then
        match s with
        | [] => [([], caps)]
        | c :: t => ([], caps) :: findallGo r fuel (some c) t
      else
        (s.take n, caps) ::
          findallGo r fuel
            (match (s.take n).getLast? with
             | some c => some c
             | none => pr)
            (s.drop n)
    | none =>
      match s with
      | [] => []
      | c :: t => findallGo r fuel (some c) t

/-- re.findall: each match is rendered as Python does — the whole match when
the pattern has no groups, otherwise the tuple of group strings (with an
empty string for a group that did not participate). -/
def pyFindall (r : RE) (ng : Nat) (s : String) : List (List String) :=
  (findallGo r (s.data.length + 1) none s.data).map (fun m =>
    if ng = 0 then [String.mk m.1]
    else ((m.2 ++ List.replicate (ng - m.2.length) []).take ng).map String.mk)

/-- re.search as a Boolean: does the pattern match anywhere? -/
def searchB (r : RE) (l : List Char) : Bool :=
  !(findallGo r (l.length + 1) none l).isEmpty

/-- re.search followed by group(1) on a single-group pattern. -/
def searchGroup1 (r : RE) (s : String) : Option String :=
  match pyFindall r 1 s with
  | [] => none
  | g :: _ => some (g.headD "")

/-- All whole-match strings of a pattern without groups. -/
def findallWhole (r : RE) (s : String) : List String :=
  (pyFindall r 0 s).map (fun item => item.headD "")

/-- A case-sensitive literal as a regex. -/
def litRE (s : String) : RE :=
  s.data.foldr (fun c r => RE.cat (.cls (fun x => x = c)) r) .eps

/-- A case-insensitive literal as a regex (re.IGNORECASE). -/
def litCIRE (s : String) : RE :=
  s.data.foldr (fun c r => RE.cat (.cls (fun x => lowC x = lowC c)) r) .eps

/-- Greedy plus over a class. -/
def plusCls (p : Char → Bool) : RE := .cat (.cls p) (.starCls p)

/-- A class repeated at least n times, greedily. -/
def repPlus (p : Char → Bool) (n : Nat) : RE := .cat (.repCls p n) (.starCls p)

/-- The class [a-z0-9._%+-] from the validator's format regex. -/
def localLC (c : Char) : Bool :=
  c.isLower || c.isDigit || c = '.' || c = '_' || c = '%' || c = '+' || c = '-'

/-- The class [a-z0-9.-]. -/
def domLC (c : Char) : Bool := c.isLower || c.isDigit || c = '.' || c = '-'

/-- The class [A-Za-z0-9._%+-]. -/
def localAC (c : Char) : Bool :=
  c.isAlpha || c.isDigit || c = '.' || c = '_' || c = '%' || c = '+' || c = '-'

/-- The class [A-Za-z0-9.-]. -/
def domAC (c : Char) : Bool := c.isAlpha || c.isDigit || c = '.' || c = '-'

/-- The class [A-Z|a-z] (the source's TLD class literally includes the pipe
character). -/
def tldAC (c : Char) : Bool := c.isAlpha || c = '|'

/-- The class [a-z]. -/
def lcAlpha (c : Char) : Bool := c.isLower

/-- is_valid_email's format regex
^[a-z0-9._%+-]+@[a-z0-9.-]+\.[a-z]\x7b2,\x7d$ (scraper.py line 60). -/
def fmtRE : RE :=
  .cat (plusCls localLC)
    (.cat (.cls (fun c => c = '@'))
      (.cat (plusCls domLC)
        (.cat (.cls (fun c => c = '.'))
          (repPlus lcAlpha 2))))

/-- is_valid_email's artifact-shape regex [a-z]\x7b3,\x7d\d+[a-z]\x7b3,\x7d\d+
(scraper.py line 90). -/
def weirdRE : RE :=
  .cat (repPlus lcAlpha 3)
    (.cat (plusCls Char.isDigit)
      (.cat (repPlus lcAlpha 3) (plusCls Char.isDigit)))

/-- The extractor's general email regex with word boundaries
(scraper.py lines 655 and 681). -/
def emailRE : RE :=
  .cat .wb
    (.cat (plusCls localAC)
      (.cat (.cls (fun c => c = '@'))
        (.cat (plusCls domAC)
          (.cat (.cls (fun c => c = '.'))
            (.cat (repPlus tldAC 2) .wb)))))

/-- The mailto regex with one capturing group (scraper.py line 625). -/
def mailtoRE : RE :=
  .cat (litCIRE "mailto:")
    (.group
      (.cat (plusCls localAC)
        (.cat (.cls (fun c => c = '@'))
          (.cat (plusCls domAC)
            (.cat (.cls (fun c => c = '.')) (repPlus tldAC 2))))))

/-- Opening bracket class for the obfuscated-email regex. -/
def openBr (c : Char) : Bool := c = '[' || c = '('

/-- Closing bracket class for the obfuscated-email regex. -/
def closeBr (c : Char) : Bool := c = ']' || c = ')'

/-- Whitespace class of the regexes. -/
def wsC (c : Char) : Bool := pySpace c

/-- The obfuscated-email regex with three capturing groups
(scraper.py line 669); note it requires a literal at sign and a literal
dot between the optional brackets. -/
def obfRE : RE :=
  .cat (.group (plusCls localAC))
    (.cat (.starCls wsC)
      (.cat (.opt (.cls openBr))
        (.cat (.starCls wsC)
          (.cat (.cls (fun c => c = '@'))
            (.cat (.starCls wsC)
              (.cat (.opt (.cls closeBr))
                (.cat (.starCls wsC)
                  (.cat (.group (plusCls domAC))
                    (.cat (.starCls wsC)
                      (.cat (.opt (.cls openBr))
                        (.cat (.starCls wsC)
                          (.cat (.cls (fun c => c = '.'))
                            (.cat (.starCls wsC)
                              (.cat (.opt (.cls closeBr))
                                (.cat (.starCls wsC)
                                  (.group (repPlus (fun c => c.isAlpha) 2)))))))))))))))))

/-- Phone pattern (\+91[-\s]?)?[6-9]\d\x7b9\x7d (Indian mobile). -/
def phoneRE1 : RE :=
  .cat (.opt (.group (.cat (litRE "+91") (.opt (.cls (fun c => c = '-' || wsC c))))))
    (.cat (.cls (fun c => c = '6' || c = '7' || c = '8' || c = '9'))
      (.repCls Char.isDigit 9))

/-- Phone pattern \+91[-.\s]?\d\x7b10\x7d (with country code). -/
def phoneRE2 : RE :=
  .cat (litRE "+91")
    (.cat (.opt (.cls (fun c => c = '-' || c = '.' || wsC c)))
      (.repCls Char.isDigit 10))

/-- Phone pattern [6-9]\d\x7b2\x7d[-.\s]?\d\x7b3\x7d[-.\s]?\d\x7b4\x7d
(with separators). -/
def phoneRE3 : RE :=
  .cat (.cls (fun c => c = '6' || c = '7' || c = '8' || c = '9'))
    (.cat (.repCls Char.isDigit 2)
      (.cat (.opt (.cls (fun c => c = '-' || c = '.' || wsC c)))
        (.cat (.repCls Char.isDigit 3)
          (.cat (.opt (.cls (fun c => c = '-' || c = '.' || wsC c)))
            (.repCls Char.isDigit 4)))))

/-- Phone pattern \(\d\x7b3\x7d\)[-.\s]?\d\x7b3\x7d[-.\s]?\d\x7b4\x7d
(US format). -/
def phoneRE4 : RE :=
  .cat (.cls (fun c => c = '('))
    (.cat (.repCls Char.isDigit 3)
      (.cat (.cls (fun c => c = ')'))
        (.cat (.opt (.cls (fun c => c = '-' || c = '.' || wsC c)))
          (.cat (.repCls Char.isDigit 3)
            (.cat (.opt (.cls (fun c => c = '-' || c = '.' || wsC c)))
              (.repCls Char.isDigit 4))))))

/-- Phone pattern \d\x7b5\x7d[-\s]?\d\x7b5\x7d (10 digits with separator). -/
def phoneRE5 : RE :=
  .cat (.repCls Char.isDigit 5)
    (.cat (.opt (.cls (fun c => c = '-' || wsC c)))
      (.repCls Char.isDigit 5))

/-- Phone pattern whatsapp[:\s]+([+\d\s-]+) (WhatsApp numbers). -/
def phoneRE6 : RE :=
  .cat (litRE "whatsapp")
    (.cat (plusCls (fun c => c = ':' || wsC c))
      (.group (plusCls (fun c => c = '+' || c.isDigit || wsC c || c = '-'))))

/-- The ordered phone pattern list of scraper.py lines 721-728, with each
pattern's number of capturing groups. -/
def phone_patterns : List (RE × Nat) :=
  [(phoneRE1, 1), (phoneRE2, 0), (phoneRE3, 0), (phoneRE4, 0), (phoneRE5, 0), (phoneRE6, 1)]

/-- Blocklist of fake/test domains and aggregator platforms
(scraper.py lines 68-77). -/
def invalid_patterns : List String :=
  ["example.com", "domain.com", "email.com", "test.com", "placeholder",
   "yoursite", "yourdomain", "sitelock", "schema.org", "w3.org",
   "wix.com", "webpack", "frontend", "backend", "bundle", "chunk",
   "googletagmanager", "analytics", ".png", ".jpg", ".jpeg", ".gif",
   "facebook.com", "twitter.com", "instagram.com", "linkedin.com",
   "eazydiner.com", "zomato.com", "swiggy.com", "ubereats.com",
   "doordash.com", "grubhub.com", "opentable.com", "bookatable.com",
   "methodistcollege.com", "learner", "enlightsago.com"]

/-- The local part before the first at sign (Python email.split('@')[0]). -/
def usernameOf (l : List Char) : List Char := l.takeWhile (fun c => c ≠ '@')

/-- The segment after the last dot (Python email.split('.')[-1]). -/
def lastSegAfterDot (l : List Char) : List Char :=
  (l.reverse.takeWhile (fun c => c ≠ '.')).reverse

/-- Python str.isalpha (empty strings are not alphabetic). -/
def pyIsAlphaL (l : List Char) : Bool := !l.isEmpty && l.all Char.isAlpha

/-- Is the username's 7-character head one of the whitelisted business-style
names (Python username[0:7] in ['contact', 'support', 'info'])? -/
def usernameWhitelisted (u : List Char) : Bool :=
  u.take 7 = "contact".data || u.take 7 = "support".data || u.take 7 = "info".data

/-- is_valid_email from scraper.py lines 44-102, as a total function.  The
only spot where the Python function indexes into a string (username[0]) is
modelled with a default character; is_valid_email_checked below models the
indexing as fallible and the two are proved to agree. -/
def is_valid_email (email : String) : Bool :=
  let l := email.data
  if l.isEmpty || !(l.contains '@') then false
  else
    let e := stripL (l.map lowC)
    if !fullmatchB fmtRE e then false
    else if 100 < e.length then false
    else if invalid_patterns.any (fun p => infixL p.data e) then false
    else if 3 < countC '-' e || 3 < countC '_' e then false
    else
      let username := usernameOf e
      if searchB weirdRE username then false
      else if 2 < countC '.' username then false
      else if (username.headD 'a').isDigit && !usernameWhitelisted username then false
      else
        let tld := lastSegAfterDot e
        if tld.length < 2 || !pyIsAlphaL tld then false
        else true

/-- is_valid_email with the Python expression username[0] modelled as a
fallible indexing operation (IndexError becomes Except.error). -/
def is_valid_email_checked (email : String) : Except Unit Bool :=
  let l := email.data
  if l.isEmpty || !(l.contains '@') then .ok false
  else
    let e := stripL (l.map lowC)
    if !fullmatchB fmtRE e then .ok false
    else if 100 < e.length then .ok false
    else if invalid_patterns.any (fun p => infixL p.data e) then .ok false
    else if 3 < countC '-' e || 3 < countC '_' e then .ok false
    else
      let username := usernameOf e
      if searchB weirdRE username then .ok false
      else if 2 < countC '.' username then .ok false
      else
        match username with
        | [] => .error ()
        | c :: _ =>
          if c.isDigit && !usernameWhitelisted username then .ok false
          else
            let tld := lastSegAfterDot e
            if tld.length < 2 || !pyIsAlphaL tld then .ok false
            else .ok true

/-- An anchor tag with an href, as selected by soup.find_all('a', href=True):
its href attribute and its get_text(strip=True) text. -/
structure Link where
  href : String
  text : String
deriving DecidableEq

/-- A footer/div/section/header element: its tag name, its class attribute
and its get_text() text. -/
structure Elem where
  tag : String
  cls : String
  text : String
deriving DecidableEq

/-- The parsed-page facts the extractor queries from BeautifulSoup: the
anchor tags with hrefs, the data-email attribute values, and the elements
with a class attribute. -/
structure Soup where
  links : List Link
  dataEmails : List String
  elems : List Elem
deriving DecidableEq

/-- Result shape of extract_contact_info_from_website. -/
structure ExtractResult where
  email : Option String
  phone : Option String
deriving DecidableEq

/-- Does the element's class attribute match one of the keywords
case-insensitively (the source's re.compile filter on class_)? -/
def classMatches (kws : List String) (cls : String) : Bool :=
  kws.any (fun k => infixS k (pyLower cls))

/-- Elements selected for email extraction (scraper.py lines 651-652). -/
def emailSections (soup : Soup) : List Elem :=
  soup.elems.filter (fun e =>
    (e.tag = "footer" || e.tag = "div" || e.tag = "section" || e.tag = "header") &&
    classMatches ["contact", "footer", "email", "info", "reach"] e.cls)

/-- Elements selected for phone extraction (scraper.py lines 717-718). -/
def phoneSections (soup : Soup) : List Elem :=
  soup.elems.filter (fun e =>
    (e.tag = "footer" || e.tag = "div" || e.tag = "section") &&
    classMatches ["contact", "footer", "phone", "tel", "call"] e.cls)

/-- Anchor tags whose href matches mailto: case-insensitively. -/
def mailtoLinks (soup : Soup) : List Link :=
  soup.links.filter (fun l => infixS "mailto:" (pyLower l.href))

/-- Anchor tags whose href matches tel: case-insensitively. -/
def telLinks (soup : Soup) : List Link :=
  soup.links.filter (fun l => infixS "tel:" (pyLower l.href))

/-- Method 1: mailto: link targets (scraper.py lines 621-632). -/
def extractMethod1 (soup : Soup) : Option String :=
  firstSome (fun l =>
    match searchGroup1 mailtoRE l.href with
    | none => none
    | some g =>
      let pot := pyLower g
      if is_valid_email pot then some pot else none) (mailtoLinks soup)

/-- Method 2: data-email attributes (scraper.py lines 635-645). -/
def extractMethod2 (soup : Soup) : Option String :=
  firstSome (fun v => if is_valid_email v then some (pyLower v) else none)
    soup.dataEmails

/-- Method 3: emails in contact-section texts (scraper.py lines 648-664). -/
def extractMethod3 (soup : Soup) : Option String :=
  firstSome (fun e =>
    match (findallWhole emailRE e.text).filter is_valid_email with
    | [] => none
    | x :: _ => some (pyLower x)) (emailSections soup)

/-- Method 4: obfuscated emails (scraper.py lines 667-676). -/
def extractMethod4 (page_source : String) : Option String :=
  match pyFindall obfRE 3 page_source with
  | [] => none
  | item :: _ =>
    let pot := pyLower ((item.getD 0 "") ++ "@" ++ (item.getD 1 "") ++ "." ++ (item.getD 2 ""))
    if is_valid_email pot then some pot else none

/-- Business-style local-part markers preferred by method 5
(scraper.py line 688). -/
def business_prefixes : List String :=
  ["info", "contact", "hello", "support", "mail", "inquiry", "sales", "admin"]

/-- Method 5: whole-page regex sweep preferring business-style addresses
(scraper.py lines 679-698). -/
def extractMethod5 (page_source : String) : Option String :=
  let valid_emails := (findallWhole emailRE page_source).filter is_valid_email
  match valid_emails.find? (fun e =>
      business_prefixes.any (fun p => infixS p (pyLower e))) with
  | some e => some (pyLower e)
  | none =>
    match valid_emails with
    | [] => none
    | x :: _ => some (pyLower x)

/-- Phone method 1: tel: link targets, first one stripping to at least 10
digits (scraper.py lines 702-709). -/
def telPhone (soup : Soup) : Option String :=
  firstSome (fun l =>
    let d := l.href.data.filter Char.isDigit
    if 10 ≤ d.length then some (String.mk d) else none) (telLinks soup)

/-- The text phone method 2 searches: joined contact-section texts when any
exist, else the whole page source (scraper.py line 719). -/
def phoneSearchText (page_source : String) (soup : Soup) : String :=
  match phoneSections soup with
  | [] => page_source
  | secs => joinSpace ((secs.map Elem.text))

/-- Strip non-digit characters (re.sub of a non-digit class with nothing). -/
def stripNonDigits (s : String) : String := String.mk (s.data.filter Char.isDigit)

/-- Phone method 2's pattern loop (scraper.py lines 730-736): the phone
variable is reassigned by every pattern that matches at all, and the loop
exits early only when the stripped digits reach length 10. -/
def phoneLoop : List (RE × Nat) → String → Option String → Option String
  | [], _, phone => phone
  | (r, ng) :: rest, text, phone =>
    match pyFindall r ng text with
    | [] => phoneLoop rest text phone
    | item :: _ =>
      let p := stripNonDigits (item.headD "")
      if 10 ≤ p.data.length then some p else phoneLoop rest text (some p)

/-- extract_contact_info_from_website (scraper.py lines 603-743). -/
def extract_contact_info_from_website (page_source : String) (soup : Soup) : ExtractResult :=
  let email :=
    match extractMethod1 soup with
    | some e => some e
    | none =>
      match extractMethod2 soup with
      | some e => some e
      | none =>
        match extractMethod3 soup with
        | some e => some e
        | none =>
          match extractMethod4 page_source with
          | some e => some e
          | none => extractMethod5 page_source
  let phone :=
    match telPhone soup with
    | some p => some p
    | none => phoneLoop phone_patterns (phoneSearchText page_source soup) none
  ⟨email, phone⟩

/-- Contact-intent keywords (scraper.py line 566). -/
def contact_keywords : List String :=
  ["contact", "about", "reach", "get-in-touch", "connect", "support"]

/-- Does the link's lowered href or lowered stripped text contain a
contact-intent keyword (scraper.py lines 576-580)? -/
def linkHasKeyword (l : Link) : Bool :=
  contact_keywords.any (fun k => infixS k (pyLower l.href) || infixS k (pyLower l.text))

/-- Order-preserving deduplication by a seen set
(scraper.py lines 588-594). -/
def dedupGo (seen : List String) : List String → List String
  | [] => []
  | x :: rest =>
    if seen.contains x then dedupGo seen rest
    else x :: dedupGo (x :: seen) rest

/-- Remove duplicates while preserving order. -/
def pyDedup (l : List String) : List String := dedupGo [] l

/-- find_contact_pages (scraper.py lines 554-600).  urlparse().netloc and
urljoin are external urllib operations, passed in as parameters. -/
def find_contact_pages (netloc : String → String) (join : String → String → String)
    (soup : Soup) (base_url : String) : List String :=
  let base_domain := netloc base_url
  let contact_pages := soup.links.filterMap (fun l =>
    if linkHasKeyword l then
      let full_url := join base_url l.href
      if netloc full_url = base_domain then some full_url else none
    else none)
  (pyDedup contact_pages).take 3

/-- Excluded aggregator/review domains of the Google-search flow
(scraper.py lines 141-154). -/
def excluded_domains : List String :=
  ["google.com", "youtube.com", "facebook.com", "instagram.com",
   "twitter.com", "linkedin.com", "wikipedia.org", "maps.google",
   "tripadvisor", "zomato.com", "swiggy.com", "quora.com",
   "yelp.com", "justdial.com", "indiamart.com", "urbanspoon",
   "eater.com", "timeout.com", "thrillist.com", "foursquare.com",
   "pinterest.com", "reddit.com", "medium.com", "blogspot.com",
   "wordpress.com", "wixsite.com", "slideshare.net", "issuu.com",
   "wanderlog.com", "tripadvisor.in", "tripadvisor.com",
   "eazydiner.com", "dineout.co.in", "opentable.com", "resy.com",
   "tableagent.com", "eatigo.com", "bookatable.com",
   "methodist", "college", "university", "edu", "school",
   "enlightsago", "blog", "/blog/", "news", "article"]

/-- Hex digit value for percent decoding. -/
def hexVal (c : Char) : Option Nat :=
  if c.isDigit then some (c.toNat - 48)
  else if 97 ≤ c.toNat ∧ c.toNat ≤ 102 then some (c.toNat - 87)
  else if 65 ≤ c.toNat ∧ c.toNat ≤ 70 then some (c.toNat - 55)
  else none

/-- Percent decoding of a character list (urllib.parse.unquote on ASCII;
malformed escapes are left unchanged, as unquote leaves them). -/
def unqGo : List Char → List Char
  | [] => []
  | '%' :: a :: b :: rest =>
    match hexVal a, hexVal b with
    | some x, some y => Char.ofNat (16 * x + y) :: unqGo rest
    | _, _ => '%' :: unqGo (a :: b :: rest)
  | c :: rest => c :: unqGo rest

/-- urllib.parse.unquote, modelled for ASCII escapes. -/
def pyUnquote (s : String) : String := String.mk (unqGo s.data)

/-- Is the URL kept by the Google-search domain filter? -/
def keptByFilter (u : String) : Bool :=
  startsWithS "http" u && !(excluded_domains.any (fun ex => infixS ex (pyLower u)))

/-- One href of the first results scan (scraper.py lines 156-176): redirect
links are unwrapped and filtered, direct links are filtered. -/
def extractHref (h : String) : Option String :=
  if infixS "/url?q=" h then
    let after := (pySplit "/url?q=".data h.data).getD 1 []
    let actual := pyUnquote (String.mk ((pySplit "&".data after).headD []))
    if keptByFilter actual then some actual else none
  else if startsWithS "http" h && !(infixS "/url?" h) then
    if keptByFilter h then some h else none
  else none

/-- One href of the alternative-search scan (scraper.py lines 197-213),
which only unwraps redirect links. -/
def extractHref2 (h : String) : Option String :=
  if infixS "/url?q=" h then
    let after := (pySplit "/url?q=".data h.data).getD 1 []
    let actual := pyUnquote (String.mk ((pySplit "&".data after).headD []))
    if keptByFilter actual then some actual else none
  else none

/-- First-phase deduplication capped at 15, preserving order
(scraper.py lines 178-184). -/
def dedupCapGo (acc : List String) : List String → List String
  | [] => acc
  | x :: rest =>
    if !(acc.contains x) && acc.length < 15 then dedupCapGo (acc ++ [x]) rest
    else dedupCapGo acc rest

/-- Second-phase merge of alternative-search results into the unique list
(scraper.py lines 200-213): stops once 15 unique sites are collected. -/
def phase2Go (acc : List String) : List String → List String
  | [] => acc
  | x :: rest =>
    if !(acc.contains x) then
      let acc2 := acc ++ [x]
      if 15 ≤ acc2.length then acc2 else phase2Go acc2 rest
    else phase2Go acc rest

/-- The candidate-list construction of search_google_web
(scraper.py lines 134-222) applied to the hrefs scraped from the first and
the alternative search-result pages. -/
def search_google_candidates (hrefs1 hrefs2 : List String) : List String :=
  let websites := hrefs1.filterMap extractHref
  let u1 := dedupCapGo [] websites
  let u2 := if u1.length < 5 then phase2Go u1 (hrefs2.filterMap extractHref2) else u1
  u2.take 10

/-- The contact record as a Python dict: a missing key and a key holding
None are both modelled as none (every consumer reads it with dict.get). -/
structure ContactInfo where
  email : Option String := none
  phone : Option String := none
  business_name : Option String := none
  website : Option String := none
  is_valid : Option Bool := none
deriving DecidableEq

/-- Result of extract_contacts_with_ai as consumed by scrape_single_page
(the string-or-null fields the pipeline reads). -/
structure AIOut where
  email : Option String
  phone : Option String
  business_name : Option String
deriving DecidableEq

/-- page_title_text.split('|')[0].split('-')[0].strip()
(scraper.py line 465). -/
def titleBiz (t : String) : String :=
  pyStrip (String.mk ((pySplit "-".data ((pySplit "|".data t.data).headD [])).headD []))

/-- The fast attempt's result: scrape_with_requests either faults (returning
the empty record) or runs the extractor on the fetched page
(scraper.py lines 371-393). -/
def fastResult (fastPage : Option (String × Soup)) : ExtractResult :=
  match fastPage with
  | none => ⟨none, none⟩
  | some (s, sp) => extract_contact_info_from_website s sp

/-- The fallback merge shared by the home page and each contact page
(scraper.py lines 476-484 and 518-526): when email or phone is still
missing, run the traditional extractor and fill only the fields that are
still empty. -/
def mergeTraditional (src : String) (soup : Soup) (ci : ContactInfo) : ContactInfo :=
  if !truS ci.email || !truS ci.phone then
    let trad := extract_contact_info_from_website src soup
    let a := if truS trad.email && !truS ci.email then { ci with email := trad.email } else ci
    if truS trad.phone && !truS a.phone then { a with phone := trad.phone } else a
  else ci

/-- One iteration of the contact-page crawl loop body
(scraper.py lines 507-526): the AI result overwrites email and phone
unconditionally whenever truthy, then the traditional fallback fills
remaining gaps. -/
def crawlStep (csrc : String) (csoup : Soup) (cai : AIOut) (ci : ContactInfo) : ContactInfo :=
  let ci1 := if truS cai.email then { ci with email := cai.email } else ci
  let ci2 := if truS cai.phone then { ci1 with phone := cai.phone } else ci1
  mergeTraditional csrc csoup ci2

/-- The contact-page crawl loop of scrape_single_page
(scraper.py lines 494-534).  visit models one browser navigation: none is a
navigation fault (the loop continues), otherwise it yields the rendered
page source, its parsed soup, and the AI extraction result for that page. -/
def contactCrawl (visit : String → Option (String × Soup × AIOut)) :
    List String → ContactInfo → ContactInfo
  | [], ci => ci
  | u :: rest, ci =>
    match visit u with
    | none => contactCrawl visit rest ci
    | some (csrc, csoup, cai) =>
      let ci3 := crawlStep csrc csoup cai ci
      if truS ci3.email && truS ci3.phone then ci3 else contactCrawl visit rest ci3

/-- scrape_single_page (scraper.py lines 396-551) as a function of its
external observations: the fast fetch, the rendered page, the AI site
classification, the AI extraction on the home page, and the per-URL
contact-page visits. -/
def scrape_single_page (netloc : String → String) (join : String → String → String)
    (url : String)
    (fastPage : Option (String × Soup))
    (rendered : Option (String × Soup × String))
    (classify : Bool)
    (aiMain : AIOut)
    (visit : String → Option (String × Soup × AIOut)) : ContactInfo :=
  let fast := fastResult fastPage
  if truS fast.email then
    { email := fast.email, phone := fast.phone, website := some url }
  else
    match rendered with
    | none => { email := none, phone := none, website := some url, is_valid := some false }
    | some (src, soup, title) =>
      if !classify then
        { email := none, phone := none, website := some url, is_valid := some false }
      else
        let ci0 : ContactInfo :=
          { email := aiMain.email, phone := aiMain.phone,
            business_name := some (pyOrS aiMain.business_name (titleBiz title)),
            website := some url, is_valid := some true }
        let ci1 := mergeTraditional src soup ci0
        if !truS ci1.email then
          contactCrawl visit ((find_contact_pages netloc join soup url).take 5) ci1
        else ci1

/-- The per-record filter of scrape_google_search_results
(scraper.py lines 840-848): records classified invalid are skipped, and a
record is kept only with a truthy business name and a truthy email or
phone. -/
def keep_search_result (r : ContactInfo) : Bool :=
  if r.is_valid = some false then false
  else truS r.business_name && (truS r.email || truS r.phone)

/-- JSON values, the shape json.loads produces. -/
inductive Json where
  | null : Json
  | bool : Bool → Json
  | num : Int → Json
  | str : String → Json
  | arr : List Json → Json
  | obj : List (String × Json) → Json

/-- dict.get on a parsed JSON object. -/
def jGet : List (String × Json) → String → Option Json
  | [], _ => none
  | (k, v) :: rest, key => if k = key then some v else jGet rest key

/-- Collapse a JSON null (Python None) into none. -/
def jVal : Option Json → Option Json
  | none => none
  | some .null => none
  | some v => some v

/-- The adapter's result record (ai_extractor.py lines 90-95): each field is
the Python value stored in the returned dict. -/
structure AIOutJ where
  email : Option Json
  phone : Option Json
  business_name : Option Json
  is_restaurant : Option Json

/-- The all-empty result returned on any fault
(ai_extractor.py lines 97-102). -/
def emptyAIResult : AIOutJ := ⟨none, none, none, some (.bool false)⟩

/-- Code-fence cleanup of the service's text (ai_extractor.py lines 81-85). -/
def cleanFences (t : String) : String :=
  if startsWithS (String.mk ['\x60', '\x60', '\x60']) t then
    let t1 := String.mk ((pySplit ['\x60', '\x60', '\x60'] t.data).getD 1 [])
    let t2 := if startsWithS "json" t1 then String.mk (t1.data.drop 4) else t1
    pyStrip t2
  else t

/-- extract_contacts_with_ai (ai_extractor.py lines 18-102) as a function of
the service response (error models a service-level fault) and the JSON
parser (error models json.JSONDecodeError; a parse result that is not an
object triggers the blanket exception handler, also yielding the empty
result). -/
def extract_contacts_with_ai (serviceResp : Except Unit String)
    (parseJson : String → Except Unit Json) : AIOutJ :=
  match serviceResp with
  | .error _ => emptyAIResult
  | .ok raw =>
    let t := cleanFences (pyStrip raw)
    match parseJson t with
    | .error _ => emptyAIResult
    | .ok j =>
      match j with
      | .obj kvs =>
        { email := jVal (jGet kvs "email"),
          phone := jVal (jGet kvs "phone"),
          business_name := jVal (jGet kvs "business_name"),
          is_restaurant :=
            match jGet kvs "is_restaurant" with
            | none => some (.bool false)
            | some v => jVal (some v) }
      | _ => emptyAIResult

/-- validate_restaurant_website (ai_extractor.py lines 105-149) as a
function of the service response: faults yield false, otherwise true
exactly when the lowered, stripped answer contains the token yes. -/
def validate_restaurant_website (serviceResp : Except Unit String) : Bool :=
  match serviceResp with
  | .error _ => false
  | .ok answer => infixS "yes" (pyLower (pyStrip answer))

/-- Substring containment as a proposition (the specification-side meaning
of: the answer contains the literal token). -/
def containsSub (needle hay : String) : Prop :=
  ∃ pre post : List Char, hay.data = pre ++ (needle.data ++ post)

/-- Specification-side reading of the phone-pattern rule: the first pattern,
in the fixed order, whose first match strips to at least 10 digits, wins;
no winner when no pattern reaches 10 digits. -/
def phoneSpecFirstWin : List (RE × Nat) → String → Option String
  | [], _ => none
  | (r, ng) :: rest, text =>
    match pyFindall r ng text with
    | [] => phoneSpecFirstWin rest text
    | item :: _ =>
      let p := stripNonDigits (item.headD "")
      if 10 ≤ p.data.length then some p else phoneSpecFirstWin rest text

/-- Host component of an absolute http(s) URL, a concrete model of
urllib.parse.urlparse().netloc used for concrete runs. -/
def netlocOf (u : String) : String :=
  String.mk (((pySplit "//".data u.data).getD 1 []).takeWhile (fun c => c ≠ '/'))

/-- Concrete model of urllib.parse.urljoin for the hrefs used in concrete
runs: an href that already carries a scheme is returned unchanged. -/
def urljoin0 (base href : String) : String :=
  if infixS "://" href then href else base ++ href

/-- A parsed page with no tags at all. -/
def emptySoup : Soup := ⟨[], [], []⟩

/-- Home-page soup of the monotonic-merge counterexample run: one contact
link. -/
def cexSoupHome : Soup := ⟨[⟨"https://a.test/contact", "Contact"⟩], [], []⟩

/-- Home-page AI result of the monotonic-merge counterexample run: a phone
but no email, so the contact-page crawl is entered. -/
def cexAiMain : AIOut := ⟨none, some "1112223333", some "Bistro"⟩

/-- Contact-page visits of the monotonic-merge counterexample run: the AI
finds both an email and a different phone there. -/
def cexVisit : String → Option (String × Soup × AIOut) :=
  fun _ => some ("", emptySoup, ⟨some "chef@bistro.test", some "2223334444", none⟩)

/-- Home-page AI result of the validation counterexample run: an email the
validator rejects. -/
def cexAiInvalid : AIOut := ⟨some "info@example.com", some "1234567890", none⟩

/-- Soup with one tel: link stripping to 11 digits. -/
def telSoup : Soup := ⟨[⟨"tel:+12345678901", "Call"⟩], [], []⟩

/-- Soup with one data-email attribute holding a valid address. -/
def dataSoup : Soup := ⟨[], ["hello@bluefin.test"], []⟩

/-- A JSON parser stand-in that always fails. -/
def parseAlwaysFails : String → Except Unit Json := fun _ => .error ()

/-- Trailing-slash normalization as the specification describes it, used to
state the deduplication counterexample. -/
def stripTrailingSlash (u : String) : String :=
  if u.data.getLast? = some '/' then String.mk u.data.dropLast else u

theorem toNat_ofNat_small (n : Nat) (h : n < 256) : (Char.ofNat n).toNat = n := by
  have hv : n.isValidChar := Or.inl (by omega)
  simp [Char.ofNat, hv, Char.ofNatAux, Char.toNat, UInt32.toNat, BitVec.toNat_ofNatLt]

theorem lowC_at_iff (c : Char) : lowC c = '@' ↔ c = '@' := by
  constructor
  · intro h
    unfold lowC at h
    split at h
    · exfalso
      have h2 := congrArg Char.toNat h
      rw [toNat_ofNat_small (c.toNat + 32) (by omega)] at h2
      have h3 : Char.toNat '@' = 64 := by decide
      omega
    · exact h
  · intro h
    subst h
    decide

theorem lowC_idem (c : Char) : lowC (lowC c) = lowC c := by
  unfold lowC
  split
  · rw [toNat_ofNat_small _ (by omega)]
    split
    · omega
    · rfl
  · rfl

theorem map_lowC_idem (l : List Char) : (l.map lowC).map lowC = l.map lowC := by
  rw [List.map_map]
  exact List.map_congr_left (fun c _ => lowC_idem c)

theorem map_lowC_isEmpty (l : List Char) : (l.map lowC).isEmpty = l.isEmpty := by
  cases l <;> rfl

theorem map_lowC_contains_at (l : List Char) : (l.map lowC).contains '@' = l.contains '@' := by
  induction l with
  | nil => rfl
  | cons c t ih =>
    simp only [List.map_cons, List.contains_cons, ih]
    have : ('@' == lowC c) = ('@' == c) := by
      by_cases h : c = '@'
      · subst h; decide
      · have h2 : lowC c ≠ '@' := fun hh => h ((lowC_at_iff c).mp hh)
        have e1 : ('@' == lowC c) = false := by
          rw [beq_eq_false_iff_ne]
          exact fun hh => h2 hh.symm
        have e2 : ('@' == c) = false := by
          rw [beq_eq_false_iff_ne]
          exact fun hh => h hh.symm
        rw [e1, e2]
    rw [this]

theorem is_valid_email_lower (e : String) : is_valid_email (pyLower e) = is_valid_email e := by
  show is_valid_email ⟨e.data.map lowC⟩ = is_valid_email e
  unfold is_valid_email
  simp only [map_lowC_isEmpty, map_lowC_contains_at, map_lowC_idem]

theorem firstSome_some {α β : Type} (f : α → Option β) (l : List α) (b : β)
    (h : firstSome f l = some b) : ∃ a ∈ l, f a = some b := by
  induction l with
  | nil => simp [firstSome] at h
  | cons x rest ih =>
    rw [firstSome] at h
    cases hx : f x with
    | some y =>
      rw [hx] at h
      exact ⟨x, List.mem_cons_self x rest, hx.trans h⟩
    | none =>
      rw [hx] at h
      obtain ⟨a, ha, hfa⟩ := ih h
      exact ⟨a, List.mem_cons_of_mem x ha, hfa⟩

theorem fmt_head (l : List Char) (h : fullmatchB fmtRE l = true) :
    ∃ c t, l = c :: t ∧ localLC c = true := by
  cases l with
  | nil => simp [fullmatchB, fmtRE, plusCls, mmatch] at h
  | cons c t =>
    by_cases hc : localLC c = true
    · exact ⟨c, t, rfl, hc⟩
    · exfalso
      simp [fullmatchB, fmtRE, plusCls, mmatch, hc] at h

theorem username_head (l : List Char) (h : fullmatchB fmtRE l = true) :
    ∃ c t, usernameOf l = c :: t := by
  obtain ⟨c, t, rfl, hc⟩ := fmt_head l h
  have hne : c ≠ '@' := by
    intro hh
    subst hh
    simp [localLC] at hc
  refine ⟨c, t.takeWhile (fun x => x ≠ '@'), ?_⟩
  simp [usernameOf, List.takeWhile_cons, hne]

set_option maxHeartbeats 1000000 in
theorem is_valid_email_checked_eq (e : String) :
    is_valid_email_checked e = Except.ok (is_valid_email e) := by
  simp only [is_valid_email, is_valid_email_checked]
  by_cases h2f : fullmatchB fmtRE (stripL (List.map lowC e.data)) = true
  · obtain ⟨c, t, hct⟩ := username_head _ h2f
    simp only [hct, List.headD_cons]
    split_ifs <;> rfl
  · have h2 : fullmatchB fmtRE (stripL (List.map lowC e.data)) = false := by
      cases hb : fullmatchB fmtRE (stripL (List.map lowC e.data))
      · rfl
      · exact absurd hb h2f
    simp [h2]

theorem extractMethod1_valid (soup : Soup) (x : String)
    (h : extractMethod1 soup = some x) : is_valid_email x = true := by
  obtain ⟨l, _, hf⟩ := firstSome_some _ _ _ h
  cases hg : searchGroup1 mailtoRE l.href with
  | none => rw [hg] at hf; exact absurd hf (by simp)
  | some g =>
    rw [hg] at hf
    have hf2 : (if is_valid_email (pyLower g) = true then some (pyLower g) else none) = some x := hf
    by_cases hv : is_valid_email (pyLower g) = true
    · rw [if_pos hv] at hf2
      cases hf2
      exact hv
    · rw [if_neg hv] at hf2
      exact absurd hf2 (by simp)

theorem extractMethod2_valid (soup : Soup) (x : String)
    (h : extractMethod2 soup = some x) : is_valid_email x = true := by
  obtain ⟨v, _, hf⟩ := firstSome_some _ _ _ h
  by_cases hv : is_valid_email v = true
  · simp only [hv, if_true] at hf
    cases hf
    rw [is_valid_email_lower]
    exact hv
  · rw [if_neg] at hf
    · exact absurd hf (by simp)
    · exact hv

theorem extractMethod3_valid (soup : Soup) (x : String)
    (h : extractMethod3 soup = some x) : is_valid_email x = true := by
  obtain ⟨el, _, hf⟩ := firstSome_some _ _ _ h
  cases hfl : (findallWhole emailRE el.text).filter is_valid_email with
  | nil => rw [hfl] at hf; exact absurd hf (by simp)
  | cons y rest =>
    rw [hfl] at hf
    cases hf
    have hy : y ∈ (findallWhole emailRE el.text).filter is_valid_email := by
      rw [hfl]; exact List.mem_cons_self y rest
    have := (List.mem_filter.mp hy).2
    rw [is_valid_email_lower]
    exact this

theorem extractMethod4_valid (src : String) (x : String)
    (h : extractMethod4 src = some x) : is_valid_email x = true := by
  unfold extractMethod4 at h
  cases hfl : pyFindall obfRE 3 src with
  | nil => rw [hfl] at h; exact absurd h (by simp)
  | cons item rest =>
    rw [hfl] at h
    simp only at h
    by_cases hv : is_valid_email (pyLower
        ((item.getD 0 "") ++ "@" ++ (item.getD 1 "") ++ "." ++ (item.getD 2 ""))) = true
    · rw [if_pos hv] at h
      cases h
      exact hv
    · rw [if_neg hv] at h
      exact absurd h (by simp)

theorem extractMethod5_valid (src : String) (x : String)
    (h : extractMethod5 src = some x) : is_valid_email x = true := by
  simp only [extractMethod5] at h
  cases hfd : (findallWhole emailRE src).filter is_valid_email |>.find? (fun e =>
      business_prefixes.any (fun p => infixS p (pyLower e))) with
  | some y =>
    rw [hfd] at h
    cases h
    have hy := List.mem_of_find?_eq_some hfd
    have := (List.mem_filter.mp hy).2
    rw [is_valid_email_lower]
    exact this
  | none =>
    rw [hfd] at h
    cases hfl : (findallWhole emailRE src).filter is_valid_email with
    | nil => rw [hfl] at h; exact absurd h (by simp)
    | cons y rest =>
      rw [hfl] at h
      cases h
      have hy : y ∈ (findallWhole emailRE src).filter is_valid_email := by
        rw [hfl]; exact List.mem_cons_self y rest
      have := (List.mem_filter.mp hy).2
      rw [is_valid_email_lower]
      exact this

theorem extract_email_valid (src : String) (soup : Soup) (x : String)
    (h : (extract_contact_info_from_website src soup).email = some x) :
    is_valid_email x = true := by
  unfold extract_contact_info_from_website at h
  simp only at h
  cases h1 : extractMethod1 soup with
  | some y => rw [h1] at h; cases h; exact extractMethod1_valid soup x h1
  | none =>
    rw [h1] at h
    cases h2 : extractMethod2 soup with
    | some y => rw [h2] at h; cases h; exact extractMethod2_valid soup x h2
    | none =>
      rw [h2] at h
      cases h3 : extractMethod3 soup with
      | some y => rw [h3] at h; cases h; exact extractMethod3_valid soup x h3
      | none =>
        rw [h3] at h
        cases h4 : extractMethod4 src with
        | some y => rw [h4] at h; cases h; exact extractMethod4_valid src x h4
        | none =>
          rw [h4] at h
          exact extractMethod5_valid src x h

theorem telPhone_some (soup : Soup) (p : String) (h : telPhone soup = some p) :
    10 ≤ p.data.length ∧ p.data.all Char.isDigit = true := by
  obtain ⟨l, _, hf⟩ := firstSome_some _ _ _ h
  by_cases hl : 10 ≤ (l.href.data.filter Char.isDigit).length
  · rw [if_pos hl] at hf
    cases hf
    refine ⟨hl, ?_⟩
    rw [List.all_eq_true]
    intro c hc
    exact (List.mem_filter.mp hc).2
  · rw [if_neg hl] at hf
    exact absurd hf (by simp)

theorem stripNonDigits_all (s : String) : (stripNonDigits s).data.all Char.isDigit = true := by
  rw [List.all_eq_true]
  intro c hc
  exact (List.mem_filter.mp hc).2

theorem phoneLoop_digits (pats : List (RE × Nat)) (text : String) :
    ∀ (acc : Option String) (p : String),
      (acc = none ∨ ∃ q, acc = some q ∧ q.data.all Char.isDigit = true) →
      phoneLoop pats text acc = some p → p.data.all Char.isDigit = true := by
  induction pats with
  | nil =>
    intro acc p hacc h
    rw [phoneLoop] at h
    rcases hacc with h1 | ⟨q, hq, hd⟩
    · rw [h1] at h; exact absurd h (by simp)
    · rw [hq] at h; cases h; exact hd
  | cons hd0 rest ih =>
    intro acc p hacc h
    obtain ⟨r, ng⟩ := hd0
    rw [phoneLoop] at h
    cases hfl : pyFindall r ng text with
    | nil =>
      rw [hfl] at h
      exact ih acc p hacc h
    | cons item tl =>
      rw [hfl] at h
      simp only at h
      by_cases h10 : 10 ≤ (stripNonDigits (item.headD "")).data.length
      · rw [if_pos h10] at h
        cases h
        exact stripNonDigits_all _
      · rw [if_neg h10] at h
        exact ih _ p (Or.inr ⟨_, rfl, stripNonDigits_all _⟩) h

theorem phoneLoop_ge10_spec (pats : List (RE × Nat)) (text : String) :
    ∀ (acc : Option String) (p : String),
      (acc = none ∨ ∃ q, acc = some q ∧ q.data.length < 10) →
      phoneLoop pats text acc = some p → 10 ≤ p.data.length →
      phoneSpecFirstWin pats text = some p := by
  induction pats with
  | nil =>
    intro acc p hacc h h10
    rw [phoneLoop] at h
    rcases hacc with h1 | ⟨q, hq, hlt⟩
    · rw [h1] at h; exact absurd h (by simp)
    · rw [hq] at h
      cases h
      omega
  | cons hd0 rest ih =>
    intro acc p hacc h h10
    obtain ⟨r, ng⟩ := hd0
    rw [phoneLoop] at h
    rw [phoneSpecFirstWin]
    cases hfl : pyFindall r ng text with
    | nil =>
      rw [hfl] at h
      exact ih acc p hacc h h10
    | cons item tl =>
      rw [hfl] at h
      simp only at h
      show (if 10 ≤ (stripNonDigits (item.headD "")).data.length
            then some (stripNonDigits (item.headD ""))
            else phoneSpecFirstWin rest text) = some p
      by_cases hx : 10 ≤ (stripNonDigits (item.headD "")).data.length
      · rw [if_pos hx] at h
        rw [if_pos hx]
        exact h
      · rw [if_neg hx] at h
        rw [if_neg hx]
        exact ih _ p (Or.inr ⟨_, rfl, by omega⟩) h h10

theorem phoneLoop_lt10_spec (pats : List (RE × Nat)) (text : String) :
    ∀ (acc : Option String) (p : String),
      phoneLoop pats text acc = some p → p.data.length < 10 →
      phoneSpecFirstWin pats text = none := by
  induction pats with
  | nil =>
    intro acc p _ _
    rfl
  | cons hd0 rest ih =>
    intro acc p h h10
    obtain ⟨r, ng⟩ := hd0
    rw [phoneLoop] at h
    rw [phoneSpecFirstWin]
    cases hfl : pyFindall r ng text with
    | nil =>
      rw [hfl] at h
      exact ih acc p h h10
    | cons item tl =>
      rw [hfl] at h
      simp only at h
      show (if 10 ≤ (stripNonDigits (item.headD "")).data.length
            then some (stripNonDigits (item.headD ""))
            else phoneSpecFirstWin rest text) = none
      by_cases hx : 10 ≤ (stripNonDigits (item.headD "")).data.length
      · rw [if_pos hx] at h
        cases h
        omega
      · rw [if_neg hx] at h
        rw [if_neg hx]
        exact ih _ p h h10

theorem dedupGo_sublist (l : List String) : ∀ seen, List.Sublist (dedupGo seen l) l := by
  induction l with
  | nil => intro seen; rw [dedupGo]
  | cons x rest ih =>
    intro seen
    rw [dedupGo]
    by_cases h : seen.contains x = true
    · rw [if_pos h]
      exact List.Sublist.cons x (ih seen)
    · rw [if_neg h]
      exact List.Sublist.cons₂ x (ih (x :: seen))

theorem dedupGo_fresh (l : List String) :
    ∀ seen, (∀ x ∈ dedupGo seen l, seen.contains x = false) ∧ (dedupGo seen l).Nodup := by
  induction l with
  | nil =>
    intro seen
    rw [dedupGo]
    exact ⟨fun x hx => absurd hx (List.not_mem_nil x), List.nodup_nil⟩
  | cons y rest ih =>
    intro seen
    rw [dedupGo]
    by_cases h : seen.contains y = true
    · rw [if_pos h]
      exact ih seen
    · rw [if_neg h]
      obtain ⟨hf, hn⟩ := ih (y :: seen)
      constructor
      · intro x hx
        rcases List.mem_cons.mp hx with h1 | h2
        · subst h1
          cases hcc : seen.contains x with
          | false => rfl
          | true => exact absurd hcc h
        · have hne := hf x h2
          simp only [List.contains_cons, Bool.or_eq_false_iff] at hne
          exact hne.2
      · refine List.Nodup.cons ?_ hn
        intro hmem
        have hne := hf y hmem
        simp [List.contains_cons] at hne

theorem pyDedup_sublist (l : List String) : List.Sublist (pyDedup l) l :=
  dedupGo_sublist l []

theorem pyDedup_nodup (l : List String) : (pyDedup l).Nodup :=
  (dedupGo_fresh l []).2

theorem filterMap_sublist_map {α β : Type} (f : α → Option β) (g : α → β)
    (hfg : ∀ a x, f a = some x → x = g a) :
    ∀ l : List α, List.Sublist (l.filterMap f) (l.map g) := by
  intro l
  induction l with
  | nil => simp
  | cons a rest ih =>
    rw [List.filterMap_cons, List.map_cons]
    cases hfa : f a with
    | none => exact List.Sublist.cons (g a) ih
    | some x =>
      rw [hfg a x hfa]
      exact List.Sublist.cons₂ (g a) ih

theorem startsWithL_iff (p : List Char) :
    ∀ l, startsWithL p l = true ↔ ∃ post, l = p ++ post := by
  induction p with
  | nil =>
    intro l
    simp [startsWithL]
  | cons c cs ih =>
    intro l
    cases l with
    | nil =>
      simp [startsWithL]
    | cons d ds =>
      rw [startsWithL]
      constructor
      · intro h
        rw [Bool.and_eq_true] at h
        obtain ⟨h1, h2⟩ := h
        have hc : c = d := by simpa using h1
        obtain ⟨post, hpost⟩ := (ih ds).mp h2
        subst hc
        exact ⟨post, by simp [hpost]⟩
      · rintro ⟨post, hpost⟩
        injection hpost with hc hd
        subst hc
        rw [Bool.and_eq_true]
        exact ⟨by simp, (ih ds).mpr ⟨post, hd⟩⟩

theorem infixL_iff (p : List Char) :
    ∀ l, infixL p l = true ↔ ∃ pre post, l = pre ++ (p ++ post) := by
  intro l
  induction l with
  | nil =>
    rw [infixL]
    constructor
    · intro h
      have hp : p = [] := by
        cases p
        · rfl
        · simp [List.isEmpty] at h
      exact ⟨[], [], by simp [hp]⟩
    · rintro ⟨pre, post, hp⟩
      have h1 : pre = [] ∧ p ++ post = [] := by
        cases pre
        · exact ⟨rfl, hp.symm⟩
        · cases hp
      have h2 : p = [] := by
        cases hpp : p
        · rfl
        · rw [hpp] at h1
          cases h1.2
      simp [h2]
  | cons c cs ih =>
    rw [infixL]
    constructor
    · intro h
      rw [Bool.or_eq_true] at h
      cases h with
      | inl hs =>
        obtain ⟨post, hpost⟩ := (startsWithL_iff p (c :: cs)).mp hs
        exact ⟨[], post, by simpa using hpost⟩
      | inr hi =>
        obtain ⟨pre, post, hp⟩ := ih.mp hi
        exact ⟨c :: pre, post, by rw [hp]; rfl⟩
    · rintro ⟨pre, post, hp⟩
      rw [Bool.or_eq_true]
      cases pre with
      | nil =>
        refine Or.inl ?_
        exact (startsWithL_iff p (c :: cs)).mpr ⟨post, by simpa using hp⟩
      | cons d ds =>
        injection hp with hc hd
        refine Or.inr ?_
        exact ih.mpr ⟨ds, post, hd⟩

theorem dedupCapGo_nodup (l : List String) :
    ∀ acc : List String, acc.Nodup → (dedupCapGo acc l).Nodup := by
  induction l with
  | nil => intro acc h; rw [dedupCapGo]; exact h
  | cons x rest ih =>
    intro acc h
    rw [dedupCapGo]
    by_cases hc : (!(acc.contains x) && acc.length < 15) = true
    · rw [if_pos hc]
      refine ih _ ?_
      rw [Bool.and_eq_true] at hc
      have hx : x ∉ acc := by simpa using hc.1
      simp [List.nodup_append, h, hx]
    · rw [if_neg hc]
      exact ih acc h

theorem phase2Go_nodup (l : List String) :
    ∀ acc : List String, acc.Nodup → (phase2Go acc l).Nodup := by
  induction l with
  | nil => intro acc h; rw [phase2Go]; exact h
  | cons x rest ih =>
    intro acc h
    rw [phase2Go]
    by_cases hc : (!(acc.contains x)) = true
    · rw [if_pos hc]
      have hx : x ∉ acc := by simpa using hc
      have hn2 : (acc ++ [x]).Nodup := by simp [List.nodup_append, h, hx]
      by_cases hl : 15 ≤ (acc ++ [x]).length
      · rw [if_pos hl]; exact hn2
      · rw [if_neg hl]; exact ih _ hn2
    · rw [if_neg hc]
      exact ih acc h

theorem mergeTraditional_email_cases (src : String) (soup : Soup) (ci : ContactInfo) (e : String)
    (h : (mergeTraditional src soup ci).email = some e) :
    (extract_contact_info_from_website src soup).email = some e ∨ ci.email = some e := by
  simp only [mergeTraditional] at h
  repeat' split at h
  all_goals first
    | exact Or.inl h
    | exact Or.inr h

theorem mergeTraditional_email_keep (src : String) (soup : Soup) (ci : ContactInfo)
    (hc : truS ci.email = true) : (mergeTraditional src soup ci).email = ci.email := by
  simp only [mergeTraditional]
  have hfalse : (truS (extract_contact_info_from_website src soup).email && !truS ci.email) = false := by
    simp [hc]
  simp only [hfalse]
  repeat' split
  all_goals first | rfl | simp_all

theorem crawlStep_email_cases (csrc : String) (csoup : Soup) (cai : AIOut) (ci : ContactInfo)
    (e : String) (h : (crawlStep csrc csoup cai ci).email = some e) :
    cai.email = some e ∨ (extract_contact_info_from_website csrc csoup).email = some e ∨
      ci.email = some e := by
  simp only [crawlStep] at h
  rcases mergeTraditional_email_cases _ _ _ _ h with h1 | h2
  · exact Or.inr (Or.inl h1)
  · revert h2
    repeat' split
    all_goals intro h2
    all_goals first
      | exact Or.inl h2
      | exact Or.inr (Or.inr h2)

theorem contactCrawl_email_cases (visit : String → Option (String × Soup × AIOut))
    (pages : List String) :
    ∀ (ci : ContactInfo) (e : String),
      (contactCrawl visit pages ci).email = some e →
      ci.email = some e ∨
        (∃ u s sp cai, visit u = some (s, sp, cai) ∧ cai.email = some e) ∨
        (∃ s sp, (extract_contact_info_from_website s sp).email = some e) := by
  induction pages with
  | nil =>
    intro ci e h
    rw [contactCrawl] at h
    exact Or.inl h
  | cons u rest ih =>
    intro ci e h
    rw [contactCrawl] at h
    cases hv : visit u with
    | none =>
      rw [hv] at h
      exact ih ci e h
    | some trip =>
      obtain ⟨csrc, csoup, cai⟩ := trip
      rw [hv] at h
      simp only at h
      have hstep : ∀ e2, (crawlStep csrc csoup cai ci).email = some e2 →
          ci.email = some e2 ∨
            (∃ u2 s sp cai2, visit u2 = some (s, sp, cai2) ∧ cai2.email = some e2) ∨
            (∃ s sp, (extract_contact_info_from_website s sp).email = some e2) := by
        intro e2 h2
        rcases crawlStep_email_cases _ _ _ _ _ h2 with ha | hb | hc
        · exact Or.inr (Or.inl ⟨u, csrc, csoup, cai, hv, ha⟩)
        · exact Or.inr (Or.inr ⟨csrc, csoup, hb⟩)
        · exact Or.inl hc
      split at h
      · exact hstep e h
      · rcases ih _ e h with h1 | h2 | h3
        · exact hstep e h1
        · exact Or.inr (Or.inl h2)
        · exact Or.inr (Or.inr h3)

/-- C1 (amended): an email set by the home-page AI stage is never
overwritten by any later stage — the traditional fallback only fills empty
fields and the contact-page crawl is only entered when the email is still
empty.  (The original claim fails for the phone field and for fields set by
earlier contact-page visits, which the crawl's AI step overwrites; see the
counterexample.) -/
theorem C1_amended_email_monotone (netloc : String → String)
    (join : String → String → String) (url : String)
    (fastPage : Option (String × Soup)) (src : String) (soup : Soup) (title : String)
    (aiMain : AIOut) (visit : String → Option (String × Soup × AIOut))
    (hfast : truS (fastResult fastPage).email = false)
    (hai : truS aiMain.email = true) :
    (scrape_single_page netloc join url fastPage (some (src, soup, title)) true
      aiMain visit).email = aiMain.email := by
  simp only [scrape_single_page]
  rw [hfast]
  simp only [Bool.false_eq_true, if_false, Bool.not_true]
  have hkeep := mergeTraditional_email_keep src soup
      { email := aiMain.email, phone := aiMain.phone,
        business_name := some (pyOrS aiMain.business_name (titleBiz title)),
        website := some url, is_valid := some true } hai
  have hcond : (!truS (mergeTraditional src soup
      { email := aiMain.email, phone := aiMain.phone,
        business_name := some (pyOrS aiMain.business_name (titleBiz title)),
        website := some url, is_valid := some true }).email) = false := by
    rw [hkeep]
    show (!truS aiMain.email) = false
    rw [hai]
    rfl
  rw [hcond]
  simp only [Bool.false_eq_true, if_false]
  exact hkeep

/-- C2 (amended): every non-empty email in the record produced by a Page
Pipeline run either satisfies the Contact Validator (this covers every
deterministic stage: the fast attempt and every traditional-extractor
fallback) or was supplied verbatim by an AI extraction result (the home-page
AI call or a contact-page AI call), which the pipeline stores without
validation.  (The original claim fails for the AI stages; see the
counterexample.) -/
theorem C2_amended_email_validated_or_ai (netloc : String → String)
    (join : String → String → String) (url : String)
    (fastPage : Option (String × Soup)) (rendered : Option (String × Soup × String))
    (classify : Bool) (aiMain : AIOut) (visit : String → Option (String × Soup × AIOut))
    (e : String)
    (h : (scrape_single_page netloc join url fastPage rendered classify
        aiMain visit).email = some e) :
    is_valid_email e = true ∨ aiMain.email = some e ∨
      ∃ u s sp cai, visit u = some (s, sp, cai) ∧ cai.email = some e := by
  simp only [scrape_single_page] at h
  by_cases hfast : truS (fastResult fastPage).email = true
  · rw [hfast] at h
    simp only [if_true] at h
    cases hfp : fastPage with
    | none =>
      rw [hfp] at hfast
      exact absurd hfast (by simp [fastResult, truS])
    | some pr =>
      obtain ⟨fs, fsp⟩ := pr
      rw [hfp] at h
      have h2 : (extract_contact_info_from_website fs fsp).email = some e := h
      exact Or.inl (extract_email_valid fs fsp e h2)
  · have hfast2 : truS (fastResult fastPage).email = false := by
      cases hb : truS (fastResult fastPage).email
      · rfl
      · exact absurd hb hfast
    rw [hfast2] at h
    simp only [Bool.false_eq_true, if_false] at h
    cases hr : rendered with
    | none =>
      rw [hr] at h
      exact absurd h (by simp)
    | some trip =>
      obtain ⟨src, soup, title⟩ := trip
      rw [hr] at h
      simp only at h
      cases hcl : classify with
      | false =>
        rw [hcl] at h
        exact absurd h (by simp)
      | true =>
        rw [hcl] at h
        simp only [Bool.not_true, Bool.false_eq_true, if_false] at h
        split at h
        · rcases contactCrawl_email_cases _ _ _ _ h with h1 | h2 | h3
          · rcases mergeTraditional_email_cases _ _ _ _ h1 with hm1 | hm2
            · exact Or.inl (extract_email_valid _ _ _ hm1)
            · exact Or.inr (Or.inl hm2)
          · exact Or.inr (Or.inr h2)
          · obtain ⟨s2, sp2, hx⟩ := h3
            exact Or.inl (extract_email_valid _ _ _ hx)
        · rcases mergeTraditional_email_cases _ _ _ _ h with hm1 | hm2
          · exact Or.inl (extract_email_valid _ _ _ hm1)
          · exact Or.inr (Or.inl hm2)

/-- C5 (amended): whenever the Pattern Extractor returns a non-null phone,
that phone is a digit string; when it has at least 10 digits it is the
value of the first source to reach 10 digits (a tel: link target, else the
first phone pattern in the fixed order whose first match strips to at least
10 digits); but when every matching pattern falls short of 10 digits, the
extractor returns the last matching pattern's stripped digits — a non-null
phone with fewer than 10 digits — rather than null.  (The original claim's
10-digit guarantee fails; see the counterexample.) -/
theorem C5_amended_phone_characterization (src : String) (soup : Soup) (p : String)
    (h : (extract_contact_info_from_website src soup).phone = some p) :
    p.data.all Char.isDigit = true ∧
    (10 ≤ p.data.length →
      telPhone soup = some p ∨
        (telPhone soup = none ∧
         phoneSpecFirstWin phone_patterns (phoneSearchText src soup) = some p)) ∧
    (p.data.length < 10 →
      telPhone soup = none ∧
      phoneSpecFirstWin phone_patterns (phoneSearchText src soup) = none) := by
  have h2 : (match telPhone soup with
      | some q => some q
      | none => phoneLoop phone_patterns (phoneSearchText src soup) none) = some p := h
  cases ht : telPhone soup with
  | some q =>
    rw [ht] at h2
    cases h2
    obtain ⟨hlen, hdig⟩ := telPhone_some soup p ht
    refine ⟨hdig, fun _ => Or.inl rfl, fun hlt => absurd hlen (by omega)⟩
  | none =>
    rw [ht] at h2
    refine ⟨phoneLoop_digits _ _ none p (Or.inl rfl) h2, ?_, ?_⟩
    · intro h10
      exact Or.inr ⟨rfl, phoneLoop_ge10_spec _ _ none p (Or.inl rfl) h2 h10⟩
    · intro hlt
      exact ⟨rfl, phoneLoop_lt10_spec _ _ none p h2 hlt⟩

/-- C8: find_contact_pages returns at most 3 URLs, without duplicates, each
resolving (via the join parameter) from a link of the page that carries a
contact-intent keyword in its href or text, each on the base URL's host
(links resolving elsewhere never appear), and in first-seen page order (the
result is a sublist of the resolved links in page order). -/
theorem C8_find_contact_pages_contract (netloc : String → String)
    (join : String → String → String) (soup : Soup) (base_url : String) :
    (find_contact_pages netloc join soup base_url).length ≤ 3 ∧
    (find_contact_pages netloc join soup base_url).Nodup ∧
    (∀ u ∈ find_contact_pages netloc join soup base_url,
      netloc u = netloc base_url ∧
      ∃ l ∈ soup.links, u = join base_url l.href ∧ linkHasKeyword l = true) ∧
    List.Sublist (find_contact_pages netloc join soup base_url)
      (soup.links.map (fun l => join base_url l.href)) := by
  have hfc : find_contact_pages netloc join soup base_url =
      (pyDedup (soup.links.filterMap (fun l =>
        if linkHasKeyword l then
          (if netloc (join base_url l.href) = netloc base_url
           then some (join base_url l.href) else none)
        else none))).take 3 := rfl
  set f : Link → Option String := fun l =>
    if linkHasKeyword l then
      (if netloc (join base_url l.href) = netloc base_url
       then some (join base_url l.href) else none)
    else none with hf
  have hfprop : ∀ l x, f l = some x →
      x = join base_url l.href ∧ netloc x = netloc base_url ∧ linkHasKeyword l = true := by
    intro l x hlx
    rw [hf] at hlx
    simp only at hlx
    by_cases h1 : linkHasKeyword l = true
    · rw [if_pos h1] at hlx
      by_cases h2 : netloc (join base_url l.href) = netloc base_url
      · rw [if_pos h2] at hlx
        cases hlx
        exact ⟨rfl, h2, h1⟩
      · rw [if_neg h2] at hlx
        exact absurd hlx (by simp)
    · rw [if_neg h1] at hlx
      exact absurd hlx (by simp)
  refine ⟨?_, ?_, ?_, ?_⟩
  · rw [hfc]
    exact List.length_take_le 3 _
  · rw [hfc]
    exact List.Nodup.sublist (List.take_sublist 3 _) (pyDedup_nodup _)
  · intro u hu
    rw [hfc] at hu
    have hu2 : u ∈ pyDedup (soup.links.filterMap f) :=
      (List.take_sublist 3 _).subset hu
    have hu3 : u ∈ soup.links.filterMap f := (pyDedup_sublist _).subset hu2
    obtain ⟨l, hl, hlx⟩ := List.mem_filterMap.mp hu3
    obtain ⟨he, hn, hk⟩ := hfprop l u hlx
    exact ⟨hn, l, hl, he, hk⟩
  · rw [hfc]
    refine List.Sublist.trans (List.take_sublist 3 _) ?_
    refine List.Sublist.trans (pyDedup_sublist _) ?_
    exact filterMap_sublist_map f (fun l => join base_url l.href)
      (fun a x hax => (hfprop a x hax).1) soup.links

/-- C3 (amended): the Discovery Pipeline's candidate list contains no two
URLs that are equal as exact strings (the seen-set deduplication), and is
capped at 10; no URL normalization is applied, so URLs differing only by a
trailing slash are distinct candidates (see the counterexample). -/
theorem C3_amended_exact_dedup (h1 h2 : List String) :
    (search_google_candidates h1 h2).Nodup ∧
    (search_google_candidates h1 h2).length ≤ 10 := by
  constructor
  · show ((if (dedupCapGo [] (h1.filterMap extractHref)).length < 5
        then phase2Go (dedupCapGo [] (h1.filterMap extractHref)) (h2.filterMap extractHref2)
        else dedupCapGo [] (h1.filterMap extractHref)).take 10).Nodup
    refine List.Nodup.sublist (List.take_sublist 10 _) ?_
    split
    · exact phase2Go_nodup _ _ (dedupCapGo_nodup _ [] List.nodup_nil)
    · exact dedupCapGo_nodup _ [] List.nodup_nil
  · exact List.length_take_le 10 _

/-- C3 counterexample: a run whose filtered results contain both the
trailing-slash and the slashless spelling of the same URL keeps both in the
candidate list, although they are equal after trailing-slash
normalization — refuting the claim that only one of them is returned. -/
theorem C3_trailing_slash_counterexample :
    "https://acme.test/" ∈ search_google_candidates
      ["https://acme.test/", "https://acme.test", "https://b1.test",
       "https://b2.test", "https://b3.test"] [] ∧
    "https://acme.test" ∈ search_google_candidates
      ["https://acme.test/", "https://acme.test", "https://b1.test",
       "https://b2.test", "https://b3.test"] [] ∧
    stripTrailingSlash "https://acme.test/" = "https://acme.test" := by decide

/-- C4: evaluating the Pattern Extractor at the claim's input — a page
containing the text info [at] acme [dot] com and no literal at sign —
returns no email at all (and no phone), because the source's obfuscation
regex requires a literal at sign and dot; the claimed reconstruction of
info@acme.com does not happen. -/
theorem C4_obfuscated_at_failing_input :
    infixS "@" "info [at] acme [dot] com" = false ∧
    extract_contact_info_from_website "info [at] acme [dot] com" emptySoup =
      ExtractResult.mk none none := by decide

/-- C6: the Contact Validator rejects the placeholder-domain address and the
aggregator-domain address, and accepts the genuine business address. -/
theorem C6_validator_verdicts :
    is_valid_email "info@example.com" = false ∧
    is_valid_email "test@zomato.com" = false ∧
    is_valid_email "contact@bluefinrestaurant.com" = true := by decide

/-- C7: the Contact Validator is total on strings — the checked embedding,
which models Python's only indexing hazard as a fallible operation, always
returns Except.ok of a Boolean verdict — and any input failing the
address-syntax pattern yields the verdict false. -/
theorem C7_validator_total_pure :
    (∀ e : String, is_valid_email_checked e = Except.ok (is_valid_email e)) ∧
    (∀ e : String, fullmatchB fmtRE (stripL (e.data.map lowC)) = false →
      is_valid_email e = false) := by
  constructor
  · exact is_valid_email_checked_eq
  · intro e hf
    simp [is_valid_email, hf]

theorem C7_validator_total_pure_witness :
    is_valid_email_checked "####" = Except.ok (is_valid_email "####") ∧
    is_valid_email "####" = false :=
  ⟨C7_validator_total_pure.1 "####", C7_validator_total_pure.2 "####" (by decide)⟩

/-- C9: the Inference Adapter never propagates a fault — a service-level
fault or a JSON parse failure yields the all-empty result rather than an
exception — and the site classifier returns true exactly when the
(non-faulting) service answer contains the literal token yes, and false on
every fault. -/
theorem C9_inference_adapter_contract :
    (∀ parse, extract_contacts_with_ai (Except.error ()) parse = emptyAIResult) ∧
    (∀ raw parse, parse (cleanFences (pyStrip raw)) = Except.error () →
      extract_contacts_with_ai (Except.ok raw) parse = emptyAIResult) ∧
    validate_restaurant_website (Except.error ()) = false ∧
    (∀ ans, validate_restaurant_website (Except.ok ans) = true ↔
      containsSub "yes" (pyLower (pyStrip ans))) := by
  refine ⟨fun parse => rfl, ?_, rfl, ?_⟩
  · intro raw parse hp
    simp only [extract_contacts_with_ai]
    rw [hp]
  · intro ans
    show infixS "yes" (pyLower (pyStrip ans)) = true ↔ _
    exact infixL_iff "yes".data (pyLower (pyStrip ans)).data

theorem C9_inference_adapter_witness :
    extract_contacts_with_ai (Except.ok "not json") parseAlwaysFails = emptyAIResult ∧
    validate_restaurant_website (Except.ok " Yes! ") = true :=
  ⟨C9_inference_adapter_contract.2.1 "not json" parseAlwaysFails rfl,
   (C9_inference_adapter_contract.2.2.2 " Yes! ").mpr ⟨[], ['!'], by decide⟩⟩

/-- C10: a fast-path success (the lightweight fetch finds a truthy email)
returns a record with no business_name and no is_valid key, and the
search-driven Discovery Pipeline's final filter therefore excludes it. -/
theorem C10_fast_path_excluded (netloc : String → String)
    (join : String → String → String) (url : String)
    (fastPage : Option (String × Soup)) (rendered : Option (String × Soup × String))
    (classify : Bool) (aiMain : AIOut) (visit : String → Option (String × Soup × AIOut))
    (hfast : truS (fastResult fastPage).email = true) :
    (scrape_single_page netloc join url fastPage rendered classify aiMain
      visit).business_name = none ∧
    (scrape_single_page netloc join url fastPage rendered classify aiMain
      visit).is_valid = none ∧
    keep_search_result (scrape_single_page netloc join url fastPage rendered
      classify aiMain visit) = false := by
  simp only [scrape_single_page]
  rw [hfast]
  simp only [if_true]
  refine ⟨?_, ?_, ?_⟩ <;> first | rfl | trivial

theorem C10_fast_path_excluded_witness :
    (scrape_single_page netlocOf urljoin0 "https://a.test" (some ("", dataSoup)) none false
      (AIOut.mk none none none) (fun _ => none)).business_name = none ∧
    (scrape_single_page netlocOf urljoin0 "https://a.test" (some ("", dataSoup)) none false
      (AIOut.mk none none none) (fun _ => none)).is_valid = none ∧
    keep_search_result (scrape_single_page netlocOf urljoin0 "https://a.test"
      (some ("", dataSoup)) none false (AIOut.mk none none none) (fun _ => none)) = false :=
  C10_fast_path_excluded netlocOf urljoin0 "https://a.test" (some ("", dataSoup)) none false
    (AIOut.mk none none none) (fun _ => none) (by decide)

/-- C1 counterexample: a run in which the home-page AI stage sets phone
1112223333 and a later contact-page AI result overwrites it with 2223334444,
refuting the claim that non-empty fields set by earlier stages are never
overwritten by later stages. -/
theorem C1_phone_overwritten_counterexample :
    cexAiMain.phone = some "1112223333" ∧
    (scrape_single_page netlocOf urljoin0 "https://a.test" none
      (some ("", cexSoupHome, "T")) true cexAiMain cexVisit).phone = some "2223334444" := by
  decide

theorem C1_amended_email_monotone_witness :
    (scrape_single_page netlocOf urljoin0 "https://a.test" none
      (some ("", emptySoup, "T")) true cexAiInvalid (fun _ => none)).email =
      cexAiInvalid.email :=
  C1_amended_email_monotone netlocOf urljoin0 "https://a.test" none "" emptySoup "T"
    cexAiInvalid (fun _ => none) (by decide) (by decide)

/-- C2 counterexample: the AI stage supplies info@example.com, which the
Contact Validator rejects, yet the pipeline stores it in the record —
refuting the claim that every stored email passes the validator. -/
theorem C2_ai_email_unvalidated_counterexample :
    (scrape_single_page netlocOf urljoin0 "https://a.test" none
      (some ("", emptySoup, "T")) true cexAiInvalid (fun _ => none)).email =
      some "info@example.com" ∧
    is_valid_email "info@example.com" = false := by decide

theorem C2_amended_email_validated_or_ai_witness :
    is_valid_email "hello@bluefin.test" = true ∨
      (AIOut.mk none none none).email = some "hello@bluefin.test" ∨
      ∃ u s sp cai,
        (fun _ : String => (none : Option (String × Soup × AIOut))) u = some (s, sp, cai) ∧
        cai.email = some "hello@bluefin.test" :=
  C2_amended_email_validated_or_ai netlocOf urljoin0 "https://a.test" (some ("", dataSoup))
    none false (AIOut.mk none none none) (fun _ => none) "hello@bluefin.test" (by decide)

/-- C5 counterexample: on a page whose only phone-like text is
whatsapp: 123, the extractor returns the non-null phone 123 with only 3
digits, refuting the claim that a returned phone always has at least 10
digits. -/
theorem C5_short_phone_counterexample :
    (extract_contact_info_from_website "whatsapp: 123" emptySoup).phone = some "123" ∧
    ¬(10 ≤ "123".data.length) := by decide

theorem C5_amended_phone_witness :
    ("12345678901".data.all Char.isDigit = true) ∧
    (10 ≤ "12345678901".data.length →
      telPhone telSoup = some "12345678901" ∨
        (telPhone telSoup = none ∧
         phoneSpecFirstWin phone_patterns (phoneSearchText "" telSoup) = some "12345678901")) ∧
    ("12345678901".data.length < 10 →
      telPhone telSoup = none ∧
      phoneSpecFirstWin phone_patterns (phoneSearchText "" telSoup) = none) :=
  C5_amended_phone_characterization "" telSoup "12345678901" (by decide)

theorem C8_find_contact_pages_witness :
    (find_contact_pages netlocOf urljoin0 cexSoupHome "https://a.test").length ≤ 3 :=
  (C8_find_contact_pages_contract netlocOf urljoin0 cexSoupHome "https://a.test").1
